import Mathlib

/-!
Shallow embedding of `vmdlib` (src/vmd.h, src/vmd.c), a codec for the VMD
binary motion format.

Modelling conventions:
* A memory buffer is a `List Nat` of byte values; reading a byte applies
  `% 256` (`byteAt`), and a read beyond the end of the buffer yields `0`
  (the C code performs no bounds check there; out-of-bounds memory is
  modelled as zero bytes).
* Byte offsets are modelled as `Nat`.  The C code stores offsets and copy
  sizes in `uint32_t`; for any input below 4 GiB no wrap occurs, so the
  model is exact on that range.
* The `int` return value of the frame comparators is `uint32_t`
  subtraction converted to a 32-bit signed integer (`toInt32`), matching
  the two's-complement conversion performed on the reference platform.
* `qsort` is modelled by insertion sort over the `size`-byte chunks that
  `qsort` permutes; any comparison sort agrees with it whenever the
  comparator induces a strict order on the elements at hand.  A call of
  `qsort` with a NULL comparator (which the C code reaches for an invalid
  `VMDStructType`) is undefined behaviour and is modelled by the marker
  `QsortResult.undef`.
* File I/O and the checked `malloc` are modelled by a `LoadEnv` of three
  booleans (fopen succeeded, malloc of the content buffer succeeded,
  fread succeeded).  The unchecked allocations in the C code (`vf` itself
  and the per-category record storage) are modelled as always succeeding.
-/

namespace VMDLib

/-- One byte of a buffer: `getD` with default 0 (out-of-bounds reads give 0),
reduced mod 256 since C memory holds bytes. -/
def byteAt (b : List Nat) (i : Nat) : Nat := b.getD i 0 % 256

/-- `memcpy` of `n` bytes starting at offset `off` of buffer `b`. -/
def readBytes (b : List Nat) (off n : Nat) : List Nat :=
  (List.range n).map (fun i => byteAt b (off + i))

/-- Read a little-endian `uint32_t` at offset `off`. -/
def readU32 (b : List Nat) (off : Nat) : Nat :=
  byteAt b off + 256 * byteAt b (off + 1) + 65536 * byteAt b (off + 2) +
    16777216 * byteAt b (off + 3)

/-- The four little-endian bytes of a `uint32_t` value. -/
def u32le (n : Nat) : List Nat :=
  [n % 256, n / 256 % 256, n / 65536 % 256, n / 16777216 % 256]

/-- The 30 bytes of `VMDLIB_MAGIC` ("Vocaloid Motion Data 0002" plus five
NUL bytes of padding, vmd.h line 22; `__VMDCheckHeader` compares exactly
`sizeof(target->header) = 30` bytes). -/
def VMDLIB_MAGIC : List Nat :=
  [86, 111, 99, 97, 108, 111, 105, 100, 32,
   77, 111, 116, 105, 111, 110, 32,
   68, 97, 116, 97, 32, 48, 48, 48, 50, 0, 0, 0, 0, 0]

/-- `sizeof(VMDHeader)`: 30-byte magic + 20-byte model name (vmd.h 58-64). -/
def sizeofVMDHeader : Nat := 30 + 20

/-- `sizeof(VMDBoneSingleFrame)` = 111: name[15], frame, 7 floats, bezier[64]
(vmd.h 67-79, packed). -/
def sizeofVMDBoneSingleFrame : Nat := 15 + 4 + 4 * 7 + 64

/-- `sizeof(VMDMorphSingleFrame)` = 23: name[15], frame, value (vmd.h 100-105). -/
def sizeofVMDMorphSingleFrame : Nat := 15 + 4 + 4

/-- `sizeof(VMDCameraSingleFrame)` = 61: frame, 7 floats, bezier[24],
viewAngle, parth (vmd.h 109-122). -/
def sizeofVMDCameraSingleFrame : Nat := 4 + 4 * 7 + 24 + 4 + 1

/-- `sizeof(VMDLightSingleFrame)` = 28: frame, 6 floats (vmd.h 143-152). -/
def sizeofVMDLightSingleFrame : Nat := 4 + 4 * 6

/-- `sizeof(VMDShadowSingleFrame)` = 9: frame, type, distance (vmd.h 156-161). -/
def sizeofVMDShadowSingleFrame : Nat := 4 + 1 + 4

/-- `sizeof(VMDInfoIK)` = 21: name[20], on_off (vmd.h 163-167). -/
def sizeofVMDInfoIK : Nat := 20 + 1

/-- `sizeof(VMDIKSingleFrame)` = 30: frame, show, ik_count, one embedded
`VMDInfoIK` (vmd.h 170-176). -/
def sizeofVMDIKSingleFrame : Nat := 4 + 1 + 4 + sizeofVMDInfoIK

/-- Error codes of vmd.h lines 14-18. -/
def VMDLIB_E_INIT : Nat := 0x0000

/-- `VMDLIB_E_FH`: failed to achieve file handler. -/
def VMDLIB_E_FH : Nat := 0x0001

/-- `VMDLIB_E_FT`: invalid file type. -/
def VMDLIB_E_FT : Nat := 0x0002

/-- `VMDLIB_E_ME`: memory allocation error. -/
def VMDLIB_E_ME : Nat := 0x0003

/-- `VMDLIB_E_IV`: invalid call. -/
def VMDLIB_E_IV : Nat := 0xffff

/-- The `VMDStructType` enum values (vmd.h 219-226), as the `int` values a
caller can pass. -/
def VMDL_BONE : Nat := 0

/-- `VMDL_MORPH` enum value. -/
def VMDL_MORPH : Nat := 1

/-- `VMDL_CAMERA` enum value. -/
def VMDL_CAMERA : Nat := 2

/-- `VMDL_LIGHT` enum value. -/
def VMDL_LIGHT : Nat := 3

/-- `VMDL_SHADOW` enum value. -/
def VMDL_SHADOW : Nat := 4

/-- `VMDL_IK` enum value. -/
def VMDL_IK : Nat := 5

/-- One `VMD*Frames` struct: a `uint32_t num_frames` and the `frames`
pointer; `none` models a NULL pointer, `some s` an allocated block whose
bytes are `s` (vmd.h 178-206). -/
structure VMDCat where
  num_frames : Nat
  frames : Option (List Nat)
deriving DecidableEq

/-- The `VMDFile` struct (vmd.h 209-217); `header` is the 50-byte
`VMDHeader` block. -/
structure VMDFile where
  header : List Nat
  bone_frames : VMDCat
  morph_frames : VMDCat
  camera_frames : VMDCat
  light_frames : VMDCat
  shadow_frames : VMDCat
  ik_frames : VMDCat
deriving DecidableEq

/-- `__VMDCheckHeader` (vmd.c 25-31): `memcmp` of the first 30 bytes of the
buffer against `VMDLIB_MAGIC`. -/
def VMDCheckHeader (content : List Nat) : Bool :=
  readBytes content 0 30 == VMDLIB_MAGIC

/-- Conversion of a `uint32_t` value to `int` (two's complement, as on the
reference platform). -/
def toInt32 (x : Nat) : Int :=
  if x % 4294967296 < 2147483648 then (x % 4294967296 : Int)
  else (x % 4294967296 : Int) - 4294967296

/-- The body of every `__VMDCompare*FrameNumber` (vmd.c 33-55):
`a->frame - b->frame` computed in `uint32_t` arithmetic and returned as a
signed `int`. -/
def cmpFrame32 (a b : Nat) : Int :=
  toInt32 (a % 4294967296 + (4294967296 - b % 4294967296))

/-- "a sorts no later than b" for `qsort`: the comparator result is `≤ 0`.
`off` is the byte offset of the `frame` field inside the record the
comparator casts to. -/
def recLE (off : Nat) (a b : List Nat) : Bool :=
  decide (cmpFrame32 (readU32 a off) (readU32 b off) ≤ 0)

/-- Insert into a list at the first position where `le` holds (the
insertion step of the model comparison sort). -/
def cInsert (le : α → α → Bool) (a : α) : List α → List α
  | [] => [a]
  | b :: bs => if le a b then a :: b :: bs else b :: cInsert le a bs

/-- Insertion sort by a boolean comparison, the model of `qsort`. -/
def cSort (le : α → α → Bool) : List α → List α
  | [] => []
  | a :: as => cInsert le a (cSort le as)

/-- The `num` chunks of `size` bytes that `qsort(data, num, size, cmp)`
permutes (chunk `i` starts at byte `size * i`; chunks past the end of the
allocation read out of bounds, modelled as zero bytes). -/
def chunkRecords (storage : List Nat) (num size : Nat) : List (List Nat) :=
  (List.range num).map (fun i => readBytes storage (size * i) size)

/-- Effect of `qsort(data, num, size, cmp)` on the bytes of `data`: the
`num` chunks of `size` bytes are rearranged into comparator order; bytes
beyond `num * size` are untouched. -/
def sortCatBytes (storage : List Nat) (num size off : Nat) : List Nat :=
  (cSort (recLE off) (chunkRecords storage num size)).flatten ++
    storage.drop (num * size)

/-- Which frame-field offset the comparator selected for `type` reads:
bone and morph records carry `name[15]` before `frame`, the other four
start with `frame`.  `none` means the `switch` default was taken and
`funcp` stayed NULL (vmd.c 77-92). -/
def frameOffsetOfType (type : Nat) : Option Nat :=
  match type with
  | 0 => some 15
  | 1 => some 15
  | 2 => some 0
  | 3 => some 0
  | 4 => some 0
  | 5 => some 0
  | _ => none

/-- Result of a `VMDqsort` call on the data argument: `ok d` is the
(possibly unchanged) data, `undef` marks that the C code called `qsort`
with a NULL comparator — undefined behaviour. -/
inductive QsortResult
  | ok : Option (List Nat) → QsortResult
  | undef : QsortResult
deriving DecidableEq

/-- The `qsort` call at vmd.c line 93, applied to the comparator the
`switch` selected: a real comparator sorts the chunks, the NULL of the
`switch` default is undefined behaviour. -/
def qsortWithComparator (storage : List Nat) (num size : Nat) :
    Option Nat → QsortResult
  | some off => QsortResult.ok (some (sortCatBytes storage num size off))
  | none => QsortResult.undef

/-- `VMDqsort` (vmd.c 69-95).  NULL data returns immediately; a valid
`type` selects a comparator and sorts; an invalid `type` prints a
diagnostic and then still calls `qsort(data, num, size, NULL)`.  The pair
carries the value of `VMD_ERROR`, which `VMDqsort` never writes. -/
def VMDqsort : Option (List Nat) → Nat → Nat → Nat → Nat → QsortResult × Nat
  | none, _num, _size, _type, err => (QsortResult.ok none, err)
  | some storage, num, size, type, err =>
    (qsortWithComparator storage num size (frameOffsetOfType type), err)

/-- One category step of `VMDLoadFromFile` (vmd.c 163-227): read the
`uint32_t` count at `off`; if nonzero, allocate and `memcpy`
`size * count` record bytes and advance past them, else leave the pointer
NULL.  Returns the parsed category and the new offset. -/
def parseCat (buf : List Nat) (off size : Nat) : VMDCat × Nat :=
  let n := readU32 buf off
  if n ≠ 0 then
    (⟨n, some (readBytes buf (off + 4) (size * n))⟩, off + 4 + size * n)
  else
    (⟨n, none⟩, off + 4)

/-- The parsing phase of `VMDLoadFromFile` (vmd.c 158-227): header then
the six categories in fixed order, each with its own record size.  Also
returns the final cursor offset (the number of input bytes the parse
consumes). -/
def VMDParseAux (buf : List Nat) : VMDFile × Nat :=
  let hdr := readBytes buf 0 sizeofVMDHeader
  let pb := parseCat buf sizeofVMDHeader sizeofVMDBoneSingleFrame
  let pm := parseCat buf pb.2 sizeofVMDMorphSingleFrame
  let pc := parseCat buf pm.2 sizeofVMDCameraSingleFrame
  let pl := parseCat buf pc.2 sizeofVMDLightSingleFrame
  let ps := parseCat buf pl.2 sizeofVMDShadowSingleFrame
  let pk := parseCat buf ps.2 sizeofVMDIKSingleFrame
  (⟨hdr, pb.1, pm.1, pc.1, pl.1, ps.1, pk.1⟩, pk.2)

/-- The `VMDFile` built by the parsing phase. -/
def VMDParse (buf : List Nat) : VMDFile := (VMDParseAux buf).1

/-- The final cursor offset of the parsing phase: how many bytes of input
the declared counts make the parse consume. -/
def VMDParseEnd (buf : List Nat) : Nat := (VMDParseAux buf).2

/-- Environment of one `VMDLoadFromFile` call: whether `fopen`, the
`malloc` of the content buffer, and `fread` succeed (vmd.c 113-143). -/
structure LoadEnv where
  fopen_ok : Bool
  malloc_ok : Bool
  fread_ok : Bool
deriving DecidableEq

/-- `VMDLoadFromFile` (vmd.c 104-231).  `content` is the byte content of
the file, `err` the value of `VMD_ERROR` before the call; the result is
the returned pointer and the value of `VMD_ERROR` after the call.  Note
that the `fread` failure branch (vmd.c 138-143) returns NULL without
writing `VMD_ERROR`, and that the allocations of `vf` and of the record
storage are unchecked in the source (modelled as always succeeding). -/
def VMDLoadFromFile (env : LoadEnv) (content : List Nat) (err : Nat) :
    Option VMDFile × Nat :=
  if env.fopen_ok = false then (none, VMDLIB_E_FH)
  else if env.malloc_ok = false then (none, VMDLIB_E_ME)
  else if env.fread_ok = false then (none, err)
  else if VMDCheckHeader content = false then (none, VMDLIB_E_FT)
  else (some (VMDParse content), err)

/-- Decoding a byte buffer with all I/O succeeding: the codec core of
`VMDLoadFromFile`. -/
def VMDDecode (content : List Nat) : Option VMDFile :=
  (VMDLoadFromFile ⟨true, true, true⟩ content VMDLIB_E_INIT).1

/-- The record bytes `fwrite` emits for one category: nothing when the
pointer is NULL, otherwise the `n` bytes it reads from the storage. -/
def encFrames : Option (List Nat) → Nat → List Nat
  | none, _ => []
  | some s, n => readBytes s 0 n

/-- The bytes one category contributes to `VMDWriteToFile` (vmd.c
255-296): the 4-byte count, then — if the pointer is non-NULL — the
`num_frames` records of `size` bytes that `fwrite` reads from it. -/
def encCat (c : VMDCat) (size : Nat) : List Nat :=
  u32le c.num_frames ++ encFrames c.frames (size * c.num_frames)

/-- The byte stream `VMDWriteToFile` (vmd.c 239-302) produces: the
50-byte header, then the six categories in fixed order, each with its own
record size. -/
def VMDEncode (vf : VMDFile) : List Nat :=
  readBytes vf.header 0 sizeofVMDHeader ++
    encCat vf.bone_frames sizeofVMDBoneSingleFrame ++
    encCat vf.morph_frames sizeofVMDMorphSingleFrame ++
    encCat vf.camera_frames sizeofVMDCameraSingleFrame ++
    encCat vf.light_frames sizeofVMDLightSingleFrame ++
    encCat vf.shadow_frames sizeofVMDShadowSingleFrame ++
    encCat vf.ik_frames sizeofVMDIKSingleFrame

/-- Effect of one (valid-type) `VMDqsort` call on a category, as
`VMDSortAllFrames` performs it: NULL data returns unchanged, otherwise the
storage is sorted with element size `size` and comparator offset `off`. -/
def sortCatC (c : VMDCat) (size off : Nat) : VMDCat :=
  match c.frames with
  | none => c
  | some s => ⟨c.num_frames, some (sortCatBytes s c.num_frames size off)⟩

/-- `VMDSortAllFrames` (vmd.c 331-345).  The six `VMDqsort` calls, with
the `size` arguments exactly as written in the source: the Light, Shadow
and IK calls pass `sizeof(VMDCameraSingleFrame)` (lines 338-343). -/
def VMDSortAllFrames (vf : VMDFile) : VMDFile :=
  { vf with
    bone_frames := sortCatC vf.bone_frames sizeofVMDBoneSingleFrame 15
    morph_frames := sortCatC vf.morph_frames sizeofVMDMorphSingleFrame 15
    camera_frames := sortCatC vf.camera_frames sizeofVMDCameraSingleFrame 0
    light_frames := sortCatC vf.light_frames sizeofVMDCameraSingleFrame 0
    shadow_frames := sortCatC vf.shadow_frames sizeofVMDCameraSingleFrame 0
    ik_frames := sortCatC vf.ik_frames sizeofVMDCameraSingleFrame 0 }

/-- Well-formedness a parsed category satisfies: count below 2^32, and
either a zero count with a NULL pointer, or a nonzero count with storage
of exactly `size * count` byte values. -/
def catWF (c : VMDCat) (size : Nat) : Prop :=
  c.num_frames < 4294967296 ∧
    ((c.num_frames = 0 ∧ c.frames = none) ∨
      (c.num_frames ≠ 0 ∧ ∃ s, c.frames = some s ∧
        s.length = size * c.num_frames ∧ ∀ x ∈ s, x < 256))

/-- Well-formedness a decoded `VMDFile` satisfies: a 50-byte header of
byte values and six well-formed categories with their own record sizes. -/
def fileWF (d : VMDFile) : Prop :=
  d.header.length = sizeofVMDHeader ∧ (∀ x ∈ d.header, x < 256) ∧
    catWF d.bone_frames sizeofVMDBoneSingleFrame ∧
    catWF d.morph_frames sizeofVMDMorphSingleFrame ∧
    catWF d.camera_frames sizeofVMDCameraSingleFrame ∧
    catWF d.light_frames sizeofVMDLightSingleFrame ∧
    catWF d.shadow_frames sizeofVMDShadowSingleFrame ∧
    catWF d.ik_frames sizeofVMDIKSingleFrame

/-- A Bone record (111 bytes) with the given frame number and all other
fields zero. -/
def boneRec (frame : Nat) : List Nat :=
  List.replicate 15 0 ++ u32le frame ++ List.replicate 92 0

/-- A Morph record (23 bytes) with the given frame number and all other
fields zero. -/
def morphRec (frame : Nat) : List Nat :=
  List.replicate 15 0 ++ u32le frame ++ List.replicate 4 0

/-- A Light record (28 bytes) with the given frame number and all other
fields zero. -/
def lightRec (frame : Nat) : List Nat :=
  u32le frame ++ List.replicate 24 0

/-- A concrete document whose Light category holds two records with frame
numbers 5 and 1. -/
def lightDoc : VMDFile :=
  ⟨List.replicate 50 0, ⟨0, none⟩, ⟨0, none⟩, ⟨0, none⟩,
    ⟨2, some (lightRec 5 ++ lightRec 1)⟩, ⟨0, none⟩, ⟨0, none⟩⟩

set_option maxRecDepth 40000

theorem byteAt_lt (b : List Nat) (i : Nat) : byteAt b i < 256 :=
  Nat.mod_lt _ (by norm_num)

theorem readBytes_length (b : List Nat) (off n : Nat) :
    (readBytes b off n).length = n := by
  simp [readBytes]

theorem readBytes_lt (b : List Nat) (off n : Nat) :
    ∀ x ∈ readBytes b off n, x < 256 := by
  intro x hx
  simp only [readBytes, List.mem_map, List.mem_range] at hx
  obtain ⟨i, _, rfl⟩ := hx
  exact byteAt_lt b (off + i)

theorem readBytes_getD (b : List Nat) (off n i : Nat) (h : i < n) :
    (readBytes b off n).getD i 0 = byteAt b (off + i) := by
  have hl : i < (readBytes b off n).length := by simpa [readBytes_length]
  rw [List.getD_eq_getElem _ _ hl]
  simp [readBytes]

theorem byteAt_readBytes (b : List Nat) (off n i : Nat) :
    byteAt (readBytes b off n) i =
      if i < n then byteAt b (off + i) else 0 := by
  by_cases h : i < n
  · rw [if_pos h]
    unfold byteAt
    rw [readBytes_getD b off n i h]
    exact Nat.mod_eq_of_lt (byteAt_lt b (off + i))
  · rw [if_neg h]
    unfold byteAt
    rw [List.getD_eq_default _ _ (by rw [readBytes_length]; omega)]

theorem byteAt_append_left (a b : List Nat) (i : Nat) (h : i < a.length) :
    byteAt (a ++ b) i = byteAt a i := by
  unfold byteAt
  rw [List.getD_append _ _ _ _ h]

theorem byteAt_append_right (a b : List Nat) (i : Nat) (h : a.length ≤ i) :
    byteAt (a ++ b) i = byteAt b (i - a.length) := by
  unfold byteAt
  rw [List.getD_append_right _ _ _ _ h]

theorem readBytes_append_left (a b : List Nat) (off n : Nat)
    (h : off + n ≤ a.length) :
    readBytes (a ++ b) off n = readBytes a off n := by
  unfold readBytes
  apply List.map_congr_left
  intro i hi
  rw [List.mem_range] at hi
  exact byteAt_append_left a b (off + i) (by omega)

theorem readBytes_append_right (a b : List Nat) (off n : Nat)
    (h : a.length ≤ off) :
    readBytes (a ++ b) off n = readBytes b (off - a.length) n := by
  unfold readBytes
  apply List.map_congr_left
  intro i hi
  rw [byteAt_append_right a b (off + i) (by omega)]
  congr 1
  omega

theorem readBytes_self (s : List Nat) (n : Nat) (h256 : ∀ x ∈ s, x < 256)
    (hlen : s.length = n) : readBytes s 0 n = s := by
  apply List.ext_getElem
  · simp [readBytes_length, hlen]
  · intro i h1 h2
    have hi : i < n := by simpa [readBytes_length] using h1
    have hg : (readBytes s 0 n).getD i 0 = byteAt s (0 + i) :=
      readBytes_getD s 0 n i hi
    rw [List.getD_eq_getElem _ _ h1] at hg
    rw [hg]
    unfold byteAt
    rw [Nat.zero_add, List.getD_eq_getElem _ _ h2]
    exact Nat.mod_eq_of_lt (h256 _ (List.getElem_mem h2))

theorem readBytes_readBytes (b : List Nat) (off n m k : Nat) (h : m + k ≤ n) :
    readBytes (readBytes b off n) m k = readBytes b (off + m) k := by
  unfold readBytes
  apply List.map_congr_left
  intro i hi
  rw [List.mem_range] at hi
  have : byteAt (List.map (fun i => byteAt b (off + i)) (List.range n)) (m + i) =
      byteAt b (off + (m + i)) := by
    have := byteAt_readBytes b off n (m + i)
    rw [if_pos (by omega)] at this
    simpa [readBytes] using this
  rw [this]
  congr 1
  omega

theorem readU32_lt (b : List Nat) (off : Nat) : readU32 b off < 4294967296 := by
  have h0 := byteAt_lt b off
  have h1 := byteAt_lt b (off + 1)
  have h2 := byteAt_lt b (off + 2)
  have h3 := byteAt_lt b (off + 3)
  unfold readU32
  omega

theorem readU32_append_right (a b : List Nat) (off : Nat) (h : a.length ≤ off) :
    readU32 (a ++ b) off = readU32 b (off - a.length) := by
  unfold readU32
  rw [byteAt_append_right a b off h, byteAt_append_right a b (off + 1) (by omega),
      byteAt_append_right a b (off + 2) (by omega),
      byteAt_append_right a b (off + 3) (by omega)]
  have e1 : off + 1 - a.length = off - a.length + 1 := by omega
  have e2 : off + 2 - a.length = off - a.length + 2 := by omega
  have e3 : off + 3 - a.length = off - a.length + 3 := by omega
  rw [e1, e2, e3]

theorem u32le_length (n : Nat) : (u32le n).length = 4 := by
  simp [u32le]

theorem readU32_u32le (n : Nat) (rest : List Nat) :
    readU32 (u32le n ++ rest) 0 = n % 4294967296 := by
  have l4 : (u32le n).length = 4 := u32le_length n
  unfold readU32
  rw [byteAt_append_left _ _ 0 (by omega),
      byteAt_append_left _ _ (0 + 1) (by omega),
      byteAt_append_left _ _ (0 + 2) (by omega),
      byteAt_append_left _ _ (0 + 3) (by omega)]
  simp [byteAt, u32le]
  omega

theorem encCat_length (c : VMDCat) (size : Nat) (h : catWF c size) :
    (encCat c size).length = 4 + size * c.num_frames := by
  obtain ⟨-, hcase⟩ := h
  rcases hcase with ⟨h0, hf⟩ | ⟨-, s, hs, -, -⟩
  · simp [encCat, encFrames, hf, u32le, h0]
  · simp [encCat, encFrames, hs, u32le_length, readBytes_length]

theorem parseCat_encCat (c : VMDCat) (size : Nat) (pre post : List Nat)
    (h : catWF c size) :
    parseCat (pre ++ (encCat c size ++ post)) pre.length size =
      (c, pre.length + 4 + size * c.num_frames) := by
  obtain ⟨nf, fr⟩ := c
  obtain ⟨hlt, hcase⟩ := h
  rcases hcase with ⟨h0, hf⟩ | ⟨hn, s, hs, hl, hb⟩
  · subst h0
    subst hf
    have hr : readU32 (pre ++ (encCat ⟨0, none⟩ size ++ post)) pre.length = 0 := by
      rw [readU32_append_right pre _ pre.length le_rfl, Nat.sub_self]
      have he : encCat ⟨0, none⟩ size = u32le 0 := by
        simp [encCat, encFrames]
      rw [he]
      simpa using readU32_u32le 0 post
    simp [parseCat, hr]
  · subst hs
    have hl' : s.length = size * nf := hl
    have hlt' : nf < 4294967296 := hlt
    have henc : encCat ⟨nf, some s⟩ size = u32le nf ++ s := by
      simp [encCat, encFrames, readBytes_self s _ hb hl']
    have hr : readU32 (pre ++ (encCat ⟨nf, some s⟩ size ++ post)) pre.length
        = nf := by
      rw [readU32_append_right pre _ pre.length le_rfl, Nat.sub_self, henc,
          List.append_assoc, readU32_u32le]
      exact Nat.mod_eq_of_lt hlt'
    have hfr : readBytes (pre ++ (encCat ⟨nf, some s⟩ size ++ post))
        (pre.length + 4) (size * nf) = s := by
      rw [readBytes_append_right pre _ _ _ (by omega), Nat.add_sub_cancel_left,
          henc, List.append_assoc,
          readBytes_append_right (u32le nf) _ _ _ (by rw [u32le_length]),
          u32le_length, Nat.sub_self,
          readBytes_append_left s post 0 _ (by omega)]
      exact readBytes_self s _ hb hl'
    simp [parseCat, hr, hn, hfr]

theorem parseCat_at_prefix (buf pre post : List Nat) (c : VMDCat)
    (size off : Nat) (hbuf : buf = pre ++ (encCat c size ++ post))
    (hoff : off = pre.length) (h : catWF c size) :
    parseCat buf off size = (c, off + 4 + size * c.num_frames) := by
  subst hbuf hoff
  exact parseCat_encCat c size pre post h

theorem parseCat_wf (buf : List Nat) (off size : Nat) :
    catWF (parseCat buf off size).1 size := by
  by_cases h : readU32 buf off = 0
  · simp [parseCat, catWF, h]
  · have he : parseCat buf off size =
        (⟨readU32 buf off, some (readBytes buf (off + 4) (size * readU32 buf off))⟩,
          off + 4 + size * readU32 buf off) := by
      simp [parseCat, h]
    rw [he]
    unfold catWF
    exact ⟨readU32_lt buf off,
      Or.inr ⟨h, _, rfl, readBytes_length _ _ _, readBytes_lt _ _ _⟩⟩

theorem parseCat_zero (buf : List Nat) (off size : Nat)
    (h : readU32 buf off = 0) :
    parseCat buf off size = (⟨0, none⟩, off + 4) := by
  simp [parseCat, h]

theorem fileWF_parse (buf : List Nat) : fileWF (VMDParse buf) := by
  refine ⟨readBytes_length _ _ _, readBytes_lt _ _ _, ?_, ?_, ?_, ?_, ?_, ?_⟩ <;>
    exact parseCat_wf _ _ _

theorem VMDDecode_eq_some (content : List Nat) (d : VMDFile) :
    VMDDecode content = some d ↔
      VMDCheckHeader content = true ∧ d = VMDParse content := by
  unfold VMDDecode VMDLoadFromFile
  by_cases h : VMDCheckHeader content <;> simp [h, eq_comm]

theorem parse_magic (content : List Nat) (hc : VMDCheckHeader content = true) :
    readBytes (VMDParse content).header 0 30 = VMDLIB_MAGIC := by
  have h1 : (VMDParse content).header = readBytes content 0 sizeofVMDHeader := rfl
  rw [h1, readBytes_readBytes content 0 sizeofVMDHeader 0 30
        (by norm_num [sizeofVMDHeader]), Nat.add_zero]
  simpa [VMDCheckHeader] using hc

theorem check_encode (d : VMDFile)
    (hm : readBytes d.header 0 30 = VMDLIB_MAGIC) :
    VMDCheckHeader (VMDEncode d) = true := by
  have h : readBytes (VMDEncode d) 0 30 = readBytes d.header 0 30 := by
    unfold VMDEncode
    simp only [List.append_assoc]
    rw [readBytes_append_left _ _ 0 30 (by rw [readBytes_length]; norm_num [sizeofVMDHeader]),
        readBytes_readBytes d.header 0 sizeofVMDHeader 0 30
          (by norm_num [sizeofVMDHeader]), Nat.add_zero]
  simp [VMDCheckHeader, h, hm]

theorem parse_encode_of_wf (d : VMDFile) (h : fileWF d) :
    VMDParse (VMDEncode d) = d := by
  obtain ⟨hh, hhb, hwb, hwm, hwc, hwl, hws, hwk⟩ := h
  obtain ⟨hdr, b, m, c, l, s, k⟩ := d
  simp only at hh hhb hwb hwm hwc hwl hws hwk
  have hH : readBytes hdr 0 sizeofVMDHeader = hdr := readBytes_self hdr _ hhb hh
  have e1 : VMDEncode ⟨hdr, b, m, c, l, s, k⟩ =
      hdr ++ (encCat b sizeofVMDBoneSingleFrame ++
        (encCat m sizeofVMDMorphSingleFrame ++
          (encCat c sizeofVMDCameraSingleFrame ++
            (encCat l sizeofVMDLightSingleFrame ++
              (encCat s sizeofVMDShadowSingleFrame ++
                encCat k sizeofVMDIKSingleFrame))))) := by
    simp [VMDEncode, hH, List.append_assoc]
  set E := VMDEncode ⟨hdr, b, m, c, l, s, k⟩ with hE
  have hhdr : readBytes E 0 sizeofVMDHeader = hdr := by
    rw [e1, readBytes_append_left _ _ 0 _ (by omega)]
    exact readBytes_self hdr _ hhb hh
  have o1 : sizeofVMDHeader + 4 + sizeofVMDBoneSingleFrame * b.num_frames =
      (hdr ++ encCat b sizeofVMDBoneSingleFrame).length := by
    rw [List.length_append, hh, encCat_length b _ hwb]
    omega
  have o2 : sizeofVMDHeader + 4 + sizeofVMDBoneSingleFrame * b.num_frames + 4 +
        sizeofVMDMorphSingleFrame * m.num_frames =
      ((hdr ++ encCat b sizeofVMDBoneSingleFrame) ++
        encCat m sizeofVMDMorphSingleFrame).length := by
    rw [List.length_append, ← o1, encCat_length m _ hwm]
    omega
  have o3 : sizeofVMDHeader + 4 + sizeofVMDBoneSingleFrame * b.num_frames + 4 +
        sizeofVMDMorphSingleFrame * m.num_frames + 4 +
        sizeofVMDCameraSingleFrame * c.num_frames =
      (((hdr ++ encCat b sizeofVMDBoneSingleFrame) ++
        encCat m sizeofVMDMorphSingleFrame) ++
        encCat c sizeofVMDCameraSingleFrame).length := by
    rw [List.length_append, ← o2, encCat_length c _ hwc]
    omega
  have o4 : sizeofVMDHeader + 4 + sizeofVMDBoneSingleFrame * b.num_frames + 4 +
        sizeofVMDMorphSingleFrame * m.num_frames + 4 +
        sizeofVMDCameraSingleFrame * c.num_frames + 4 +
        sizeofVMDLightSingleFrame * l.num_frames =
      ((((hdr ++ encCat b sizeofVMDBoneSingleFrame) ++
        encCat m sizeofVMDMorphSingleFrame) ++
        encCat c sizeofVMDCameraSingleFrame) ++
        encCat l sizeofVMDLightSingleFrame).length := by
    rw [List.length_append, ← o3, encCat_length l _ hwl]
    omega
  have o5 : sizeofVMDHeader + 4 + sizeofVMDBoneSingleFrame * b.num_frames + 4 +
        sizeofVMDMorphSingleFrame * m.num_frames + 4 +
        sizeofVMDCameraSingleFrame * c.num_frames + 4 +
        sizeofVMDLightSingleFrame * l.num_frames + 4 +
        sizeofVMDShadowSingleFrame * s.num_frames =
      (((((hdr ++ encCat b sizeofVMDBoneSingleFrame) ++
        encCat m sizeofVMDMorphSingleFrame) ++
        encCat c sizeofVMDCameraSingleFrame) ++
        encCat l sizeofVMDLightSingleFrame) ++
        encCat s sizeofVMDShadowSingleFrame).length := by
    rw [List.length_append, ← o4, encCat_length s _ hws]
    omega
  have p1 : parseCat E sizeofVMDHeader sizeofVMDBoneSingleFrame =
      (b, sizeofVMDHeader + 4 + sizeofVMDBoneSingleFrame * b.num_frames) :=
    parseCat_at_prefix E hdr _ b _ _ (by rw [e1]) hh.symm hwb
  have p2 : parseCat E
        (sizeofVMDHeader + 4 + sizeofVMDBoneSingleFrame * b.num_frames)
        sizeofVMDMorphSingleFrame =
      (m, sizeofVMDHeader + 4 + sizeofVMDBoneSingleFrame * b.num_frames + 4 +
        sizeofVMDMorphSingleFrame * m.num_frames) := by
    have := parseCat_at_prefix E (hdr ++ encCat b sizeofVMDBoneSingleFrame)
      (encCat c sizeofVMDCameraSingleFrame ++
        (encCat l sizeofVMDLightSingleFrame ++
          (encCat s sizeofVMDShadowSingleFrame ++ encCat k sizeofVMDIKSingleFrame))) m
      sizeofVMDMorphSingleFrame _ (by rw [e1]; simp [List.append_assoc]) o1 hwm
    exact this
  have p3 : parseCat E
        (sizeofVMDHeader + 4 + sizeofVMDBoneSingleFrame * b.num_frames + 4 +
          sizeofVMDMorphSingleFrame * m.num_frames)
        sizeofVMDCameraSingleFrame =
      (c, sizeofVMDHeader + 4 + sizeofVMDBoneSingleFrame * b.num_frames + 4 +
        sizeofVMDMorphSingleFrame * m.num_frames + 4 +
        sizeofVMDCameraSingleFrame * c.num_frames) := by
    have := parseCat_at_prefix E
      ((hdr ++ encCat b sizeofVMDBoneSingleFrame) ++ encCat m sizeofVMDMorphSingleFrame)
      (encCat l sizeofVMDLightSingleFrame ++
        (encCat s sizeofVMDShadowSingleFrame ++ encCat k sizeofVMDIKSingleFrame))
      c sizeofVMDCameraSingleFrame _ (by rw [e1]; simp [List.append_assoc]) o2 hwc
    exact this
  have p4 : parseCat E
        (sizeofVMDHeader + 4 + sizeofVMDBoneSingleFrame * b.num_frames + 4 +
          sizeofVMDMorphSingleFrame * m.num_frames + 4 +
          sizeofVMDCameraSingleFrame * c.num_frames)
        sizeofVMDLightSingleFrame =
      (l, sizeofVMDHeader + 4 + sizeofVMDBoneSingleFrame * b.num_frames + 4 +
        sizeofVMDMorphSingleFrame * m.num_frames + 4 +
        sizeofVMDCameraSingleFrame * c.num_frames + 4 +
        sizeofVMDLightSingleFrame * l.num_frames) := by
    have := parseCat_at_prefix E
      (((hdr ++ encCat b sizeofVMDBoneSingleFrame) ++ encCat m sizeofVMDMorphSingleFrame) ++
        encCat c sizeofVMDCameraSingleFrame)
      (encCat s sizeofVMDShadowSingleFrame ++ encCat k sizeofVMDIKSingleFrame)
      l sizeofVMDLightSingleFrame _ (by rw [e1]; simp [List.append_assoc]) o3 hwl
    exact this
  have p5 : parseCat E
        (sizeofVMDHeader + 4 + sizeofVMDBoneSingleFrame * b.num_frames + 4 +
          sizeofVMDMorphSingleFrame * m.num_frames + 4 +
          sizeofVMDCameraSingleFrame * c.num_frames + 4 +
          sizeofVMDLightSingleFrame * l.num_frames)
        sizeofVMDShadowSingleFrame =
      (s, sizeofVMDHeader + 4 + sizeofVMDBoneSingleFrame * b.num_frames + 4 +
        sizeofVMDMorphSingleFrame * m.num_frames + 4 +
        sizeofVMDCameraSingleFrame * c.num_frames + 4 +
        sizeofVMDLightSingleFrame * l.num_frames + 4 +
        sizeofVMDShadowSingleFrame * s.num_frames) := by
    have := parseCat_at_prefix E
      ((((hdr ++ encCat b sizeofVMDBoneSingleFrame) ++ encCat m sizeofVMDMorphSingleFrame) ++
        encCat c sizeofVMDCameraSingleFrame) ++ encCat l sizeofVMDLightSingleFrame)
      (encCat k sizeofVMDIKSingleFrame)
      s sizeofVMDShadowSingleFrame _ (by rw [e1]; simp [List.append_assoc]) o4 hws
    exact this
  have p6 : parseCat E
        (sizeofVMDHeader + 4 + sizeofVMDBoneSingleFrame * b.num_frames + 4 +
          sizeofVMDMorphSingleFrame * m.num_frames + 4 +
          sizeofVMDCameraSingleFrame * c.num_frames + 4 +
          sizeofVMDLightSingleFrame * l.num_frames + 4 +
          sizeofVMDShadowSingleFrame * s.num_frames)
        sizeofVMDIKSingleFrame =
      (k, sizeofVMDHeader + 4 + sizeofVMDBoneSingleFrame * b.num_frames + 4 +
        sizeofVMDMorphSingleFrame * m.num_frames + 4 +
        sizeofVMDCameraSingleFrame * c.num_frames + 4 +
        sizeofVMDLightSingleFrame * l.num_frames + 4 +
        sizeofVMDShadowSingleFrame * s.num_frames + 4 +
        sizeofVMDIKSingleFrame * k.num_frames) := by
    have := parseCat_at_prefix E
      (((((hdr ++ encCat b sizeofVMDBoneSingleFrame) ++ encCat m sizeofVMDMorphSingleFrame) ++
        encCat c sizeofVMDCameraSingleFrame) ++ encCat l sizeofVMDLightSingleFrame) ++
        encCat s sizeofVMDShadowSingleFrame)
      [] k sizeofVMDIKSingleFrame _ (by rw [e1]; simp [List.append_assoc]) o5 hwk
    exact this
  show (VMDParseAux E).1 = _
  rw [VMDParseAux]
  simp only [p1, p2, p3, p4, p5, p6, hhdr]

/-- C2: at a buffer declaring a Bone count of 10 with no Bone record
bytes present (a valid header, a zero model name, then `u32le 10` and
nothing else — 54 bytes), `VMDLoadFromFile` does NOT fail: it returns a
document, leaves `VMD_ERROR` at its previous value, and its parse cursor
runs to offset 1184, far past the 54-byte buffer — the `memcpy` of
vmd.c line 168 reads 1110 bytes out of bounds.  This refutes the claim's
"decode fails with a truncation error and never reads past the end". -/
theorem c2_truncation_unchecked :
    (VMDLoadFromFile ⟨true, true, true⟩
        (VMDLIB_MAGIC ++ List.replicate 20 0 ++ u32le 10) VMDLIB_E_INIT).1.isSome = true ∧
    (VMDLoadFromFile ⟨true, true, true⟩
        (VMDLIB_MAGIC ++ List.replicate 20 0 ++ u32le 10) VMDLIB_E_INIT).2 = VMDLIB_E_INIT ∧
    (VMDLIB_MAGIC ++ List.replicate 20 0 ++ u32le 10 : List Nat).length = 54 ∧
    VMDParseEnd (VMDLIB_MAGIC ++ List.replicate 20 0 ++ u32le 10) = 1184 := by
  decide

/-- C3: the comparator `__VMDCompareBoneFrameNumber` subtracts the frames
in `uint32_t` and converts to `int`, so on frames `1` and `0xFFFFFFFF` it
returns `+2`, and the category sort places the `0xFFFFFFFF` record FIRST,
not the `0x00000001` record as the claim states. -/
theorem c3_signed_comparator_bug :
    VMDqsort (some (boneRec 1 ++ boneRec 0xFFFFFFFF)) 2
        sizeofVMDBoneSingleFrame VMDL_BONE VMDLIB_E_INIT =
      (QsortResult.ok (some (boneRec 0xFFFFFFFF ++ boneRec 1)), VMDLIB_E_INIT) ∧
    cmpFrame32 1 0xFFFFFFFF = 2 ∧
    readU32 (boneRec 0xFFFFFFFF ++ boneRec 1) 15 = 0xFFFFFFFF := by
  decide

/-- C4: `VMDSortAllFrames` passes `sizeof(VMDCameraSingleFrame)` = 61 as
the element size for the Light category (vmd.c line 339) instead of
`sizeof(VMDLightSingleFrame)` = 28.  On a document with two Light records
(frames 5 and 1, 56 bytes of storage) the sort permutes two 61-byte
blocks, reading 66 bytes past the array (modelled as zero bytes), and the
result is not the records reordered whole; sorting with the Light
record's own size would give exactly that reordering. -/
theorem c4_sort_all_wrong_size :
    (VMDSortAllFrames lightDoc).light_frames.frames =
      some (List.replicate 61 0 ++ (lightRec 5 ++ lightRec 1) ++ List.replicate 5 0) ∧
    (VMDSortAllFrames lightDoc).light_frames.frames ≠ some (lightRec 1 ++ lightRec 5) ∧
    sortCatC ⟨2, some (lightRec 5 ++ lightRec 1)⟩ sizeofVMDLightSingleFrame 0 =
      ⟨2, some (lightRec 1 ++ lightRec 5)⟩ ∧
    sizeofVMDCameraSingleFrame ≠ sizeofVMDLightSingleFrame := by
  decide

/-- C5: called with the out-of-range category selector `6` on non-NULL
data, `VMDqsort` leaves `VMD_ERROR` unchanged (it never writes
`VMDLIB_E_IV`) and falls through the `switch` to call `qsort` with a NULL
comparator — undefined behaviour (`QsortResult.undef`), not a guaranteed
no-op.  This refutes the claim that the invalid-call kind is recorded and
the records are left unchanged. -/
theorem c5_invalid_type_not_recorded :
    VMDqsort (some (morphRec 1 ++ morphRec 0)) 2 sizeofVMDMorphSingleFrame 6
        VMDLIB_E_INIT =
      (QsortResult.undef, VMDLIB_E_INIT) ∧
    VMDLIB_E_INIT ≠ VMDLIB_E_IV ∧
    frameOffsetOfType 6 = none := by
  decide

/-- C6 counterexample: when `fopen` and the content `malloc` succeed but
`fread` fails, `VMDLoadFromFile` returns NULL without writing
`VMD_ERROR`: starting from `VMDLIB_E_INIT`, the Error State after the
failed decode is still the no-error kind, not any of the four failure
kinds the claim requires. -/
theorem c6_counterexample :
    (VMDLoadFromFile ⟨true, true, false⟩ [] VMDLIB_E_INIT).1 = none ∧
    (VMDLoadFromFile ⟨true, true, false⟩ [] VMDLIB_E_INIT).2 = VMDLIB_E_INIT ∧
    VMDLIB_E_INIT ≠ VMDLIB_E_FH ∧ VMDLIB_E_INIT ≠ VMDLIB_E_FT ∧
    VMDLIB_E_INIT ≠ VMDLIB_E_ME ∧ VMDLIB_E_INIT ≠ VMDLIB_E_IV := by
  decide

/-- C6 amended: on `fopen` failure decode returns nothing with
`VMD_ERROR = VMDLIB_E_FH`; on failure of the (content-buffer) allocation
it returns nothing with `VMDLIB_E_ME`; on `fread` failure it returns
nothing with `VMD_ERROR` left unchanged; on a magic mismatch it returns
nothing with `VMDLIB_E_FT`.  (The allocations of the Document itself and
of the record storage are unchecked in the source.) -/
theorem c6_amended (env : LoadEnv) (content : List Nat) (err : Nat) :
    (env.fopen_ok = false → VMDLoadFromFile env content err = (none, VMDLIB_E_FH)) ∧
    (env.fopen_ok = true → env.malloc_ok = false →
      VMDLoadFromFile env content err = (none, VMDLIB_E_ME)) ∧
    (env.fopen_ok = true → env.malloc_ok = true → env.fread_ok = false →
      VMDLoadFromFile env content err = (none, err)) ∧
    (env.fopen_ok = true → env.malloc_ok = true → env.fread_ok = true →
      VMDCheckHeader content = false →
      VMDLoadFromFile env content err = (none, VMDLIB_E_FT)) := by
  refine ⟨fun h1 => ?_, fun h1 h2 => ?_, fun h1 h2 h3 => ?_, fun h1 h2 h3 h4 => ?_⟩ <;>
    simp [VMDLoadFromFile, h1]
  · simp [h2]
  · simp [h2, h3]
  · simp [h2, h3, h4]

/-- C6 amended, witness: the `fread`-failure branch at a concrete state. -/
theorem c6_amended_witness :
    VMDLoadFromFile ⟨true, true, false⟩ [1] 5 = (none, 5) :=
  (c6_amended ⟨true, true, false⟩ [1] 5).2.2.1 rfl rfl rfl

/-- C7: whenever the first 30 bytes of the buffer (as `memcmp` reads
them) differ from `VMDLIB_MAGIC`, decode fails with the wrong-format kind
`VMDLIB_E_FT` and produces no document, for any prior Error State. -/
theorem c7_header_rejection (content : List Nat) (err : Nat)
    (h : readBytes content 0 30 ≠ VMDLIB_MAGIC) :
    VMDLoadFromFile ⟨true, true, true⟩ content err = (none, VMDLIB_E_FT) := by
  have hc : VMDCheckHeader content = false := by
    simp [VMDCheckHeader, h]
  simp [VMDLoadFromFile, hc]

/-- C7 witness: a one-byte buffer is rejected as wrong-format. -/
theorem c7_header_rejection_witness :
    VMDLoadFromFile ⟨true, true, true⟩ [1] 0 = (none, VMDLIB_E_FT) :=
  c7_header_rejection [1] 0 (by decide)

/-- C1: for any byte buffer whose decode succeeds with Document `d`,
decoding the bytes produced by encoding `d` succeeds and returns `d`
itself — identical header, identical per-category counts and identical
record bytes in the same order for each of the six categories. -/
theorem c1_round_trip (content : List Nat) (d : VMDFile)
    (h : VMDDecode content = some d) :
    VMDDecode (VMDEncode d) = some d := by
  rw [VMDDecode_eq_some] at h
  obtain ⟨hc, rfl⟩ := h
  rw [VMDDecode_eq_some]
  exact ⟨check_encode _ (parse_magic content hc),
    (parse_encode_of_wf _ (fileWF_parse content)).symm⟩

/-- C1 witness: round trip of the document decoded from the minimal
all-empty buffer. -/
theorem c1_round_trip_witness :
    VMDDecode (VMDEncode (VMDFile.mk (VMDLIB_MAGIC ++ List.replicate 20 0)
        ⟨0, none⟩ ⟨0, none⟩ ⟨0, none⟩ ⟨0, none⟩ ⟨0, none⟩ ⟨0, none⟩)) =
      some (VMDFile.mk (VMDLIB_MAGIC ++ List.replicate 20 0)
        ⟨0, none⟩ ⟨0, none⟩ ⟨0, none⟩ ⟨0, none⟩ ⟨0, none⟩ ⟨0, none⟩) :=
  c1_round_trip ((VMDLIB_MAGIC ++ List.replicate 20 0) ++ List.replicate 24 0) _
    (by decide)

/-- C9: a buffer made of a valid 50-byte header (magic plus any 20 model
name bytes) followed by six zero-valued 32-bit counts decodes to a
Document whose six categories all have count 0 and no records, and
encoding that Document yields exactly the header bytes followed by the
24 zero count bytes and nothing else. -/
theorem c9_empty_categories (name : List Nat) (hlen : name.length = 20)
    (hb : ∀ x ∈ name, x < 256) :
    VMDDecode ((VMDLIB_MAGIC ++ name) ++ List.replicate 24 0) =
      some ⟨VMDLIB_MAGIC ++ name, ⟨0, none⟩, ⟨0, none⟩, ⟨0, none⟩, ⟨0, none⟩,
        ⟨0, none⟩, ⟨0, none⟩⟩ ∧
    VMDEncode ⟨VMDLIB_MAGIC ++ name, ⟨0, none⟩, ⟨0, none⟩, ⟨0, none⟩, ⟨0, none⟩,
        ⟨0, none⟩, ⟨0, none⟩⟩ =
      (VMDLIB_MAGIC ++ name) ++ List.replicate 24 0 := by
  have hA : (VMDLIB_MAGIC ++ name).length = sizeofVMDHeader := by
    rw [List.length_append, hlen]
    decide
  have hAb : ∀ x ∈ VMDLIB_MAGIC ++ name, x < 256 := by
    intro x hx
    rcases List.mem_append.1 hx with h | h
    · exact (by decide : ∀ y ∈ VMDLIB_MAGIC, y < 256) x h
    · exact hb x h
  have hH : readBytes (VMDLIB_MAGIC ++ name) 0 sizeofVMDHeader =
      VMDLIB_MAGIC ++ name := readBytes_self _ _ hAb hA
  have hz : ∀ kk < 21, readU32 (List.replicate 24 0) kk = 0 := by decide
  have hcnt : ∀ kk : Nat,
      readU32 ((VMDLIB_MAGIC ++ name) ++ List.replicate 24 0)
          (sizeofVMDHeader + kk) =
        readU32 (List.replicate 24 0) kk := by
    intro kk
    rw [readU32_append_right _ _ _ (by rw [hA]; omega)]
    congr 1
    rw [hA]
    omega
  constructor
  · rw [VMDDecode_eq_some]
    constructor
    · unfold VMDCheckHeader
      rw [readBytes_append_left _ _ 0 30 (by rw [hA]; decide),
          readBytes_append_left VMDLIB_MAGIC name 0 30 (by decide)]
      decide
    · have hhdr : readBytes ((VMDLIB_MAGIC ++ name) ++ List.replicate 24 0) 0
          sizeofVMDHeader = VMDLIB_MAGIC ++ name := by
        rw [readBytes_append_left _ _ 0 _ (by rw [hA]; omega)]
        exact hH
      have q1 : parseCat ((VMDLIB_MAGIC ++ name) ++ List.replicate 24 0)
          sizeofVMDHeader sizeofVMDBoneSingleFrame =
          (⟨0, none⟩, sizeofVMDHeader + 4) := by
        apply parseCat_zero
        have e := hcnt 0
        rw [Nat.add_zero] at e
        rw [e]
        exact hz 0 (by omega)
      have q2 : parseCat ((VMDLIB_MAGIC ++ name) ++ List.replicate 24 0)
          (sizeofVMDHeader + 4) sizeofVMDMorphSingleFrame =
          (⟨0, none⟩, sizeofVMDHeader + 4 + 4) := by
        apply parseCat_zero
        rw [hcnt 4]
        exact hz 4 (by omega)
      have q3 : parseCat ((VMDLIB_MAGIC ++ name) ++ List.replicate 24 0)
          (sizeofVMDHeader + 4 + 4) sizeofVMDCameraSingleFrame =
          (⟨0, none⟩, sizeofVMDHeader + 4 + 4 + 4) := by
        apply parseCat_zero
        have e : sizeofVMDHeader + 4 + 4 = sizeofVMDHeader + 8 := by omega
        rw [e, hcnt 8]
        exact hz 8 (by omega)
      have q4 : parseCat ((VMDLIB_MAGIC ++ name) ++ List.replicate 24 0)
          (sizeofVMDHeader + 4 + 4 + 4) sizeofVMDLightSingleFrame =
          (⟨0, none⟩, sizeofVMDHeader + 4 + 4 + 4 + 4) := by
        apply parseCat_zero
        have e : sizeofVMDHeader + 4 + 4 + 4 = sizeofVMDHeader + 12 := by omega
        rw [e, hcnt 12]
        exact hz 12 (by omega)
      have q5 : parseCat ((VMDLIB_MAGIC ++ name) ++ List.replicate 24 0)
          (sizeofVMDHeader + 4 + 4 + 4 + 4) sizeofVMDShadowSingleFrame =
          (⟨0, none⟩, sizeofVMDHeader + 4 + 4 + 4 + 4 + 4) := by
        apply parseCat_zero
        have e : sizeofVMDHeader + 4 + 4 + 4 + 4 = sizeofVMDHeader + 16 := by
          omega
        rw [e, hcnt 16]
        exact hz 16 (by omega)
      have q6 : parseCat ((VMDLIB_MAGIC ++ name) ++ List.replicate 24 0)
          (sizeofVMDHeader + 4 + 4 + 4 + 4 + 4) sizeofVMDIKSingleFrame =
          (⟨0, none⟩, sizeofVMDHeader + 4 + 4 + 4 + 4 + 4 + 4) := by
        apply parseCat_zero
        have e : sizeofVMDHeader + 4 + 4 + 4 + 4 + 4 = sizeofVMDHeader + 20 := by
          omega
        rw [e, hcnt 20]
        exact hz 20 (by omega)
      show _ = (VMDParseAux _).1
      rw [VMDParseAux]
      simp only [q1, q2, q3, q4, q5, q6, hhdr]
  · have he : VMDEncode ⟨VMDLIB_MAGIC ++ name, ⟨0, none⟩, ⟨0, none⟩, ⟨0, none⟩,
        ⟨0, none⟩, ⟨0, none⟩, ⟨0, none⟩⟩ =
        (VMDLIB_MAGIC ++ name) ++
          (encCat ⟨0, none⟩ sizeofVMDBoneSingleFrame ++
            (encCat ⟨0, none⟩ sizeofVMDMorphSingleFrame ++
              (encCat ⟨0, none⟩ sizeofVMDCameraSingleFrame ++
                (encCat ⟨0, none⟩ sizeofVMDLightSingleFrame ++
                  (encCat ⟨0, none⟩ sizeofVMDShadowSingleFrame ++
                    encCat ⟨0, none⟩ sizeofVMDIKSingleFrame))))) := by
      simp [VMDEncode, hH, List.append_assoc]
    have htail : encCat (⟨0, none⟩ : VMDCat) sizeofVMDBoneSingleFrame ++
        (encCat ⟨0, none⟩ sizeofVMDMorphSingleFrame ++
          (encCat ⟨0, none⟩ sizeofVMDCameraSingleFrame ++
            (encCat ⟨0, none⟩ sizeofVMDLightSingleFrame ++
              (encCat ⟨0, none⟩ sizeofVMDShadowSingleFrame ++
                encCat ⟨0, none⟩ sizeofVMDIKSingleFrame)))) =
        List.replicate 24 0 := by decide
    rw [he, htail, List.append_assoc]

/-- C9 witness: the all-zero model name instance. -/
theorem c9_empty_categories_witness :
    VMDDecode ((VMDLIB_MAGIC ++ List.replicate 20 0) ++ List.replicate 24 0) =
      some ⟨VMDLIB_MAGIC ++ List.replicate 20 0, ⟨0, none⟩, ⟨0, none⟩, ⟨0, none⟩,
        ⟨0, none⟩, ⟨0, none⟩, ⟨0, none⟩⟩ ∧
    VMDEncode ⟨VMDLIB_MAGIC ++ List.replicate 20 0, ⟨0, none⟩, ⟨0, none⟩,
        ⟨0, none⟩, ⟨0, none⟩, ⟨0, none⟩, ⟨0, none⟩⟩ =
      (VMDLIB_MAGIC ++ List.replicate 20 0) ++ List.replicate 24 0 :=
  c9_empty_categories (List.replicate 20 0) (by decide) (by decide)

/-- C10: the decoder treats every ShowIK record as the fixed 30-byte
`VMDIKSingleFrame` (frame index, visibility byte, `ik_count`, and exactly
one embedded 21-byte `VMDInfoIK` entry): for any buffer and offset, the
cursor after the ShowIK category is `off + 4 + 30 * count`, a function of
the 4 count bytes alone — the `ik_count` field inside a record never
changes the stride — the stored record bytes are exactly `30 * count`,
and the encoder likewise writes `4 + 30 * count` bytes back. -/
theorem c10_showik_fixed_size (buf : List Nat) (off : Nat) :
    (parseCat buf off sizeofVMDIKSingleFrame).2 =
      off + 4 +
        sizeofVMDIKSingleFrame * (parseCat buf off sizeofVMDIKSingleFrame).1.num_frames ∧
    ((parseCat buf off sizeofVMDIKSingleFrame).1.frames.getD []).length =
      sizeofVMDIKSingleFrame * (parseCat buf off sizeofVMDIKSingleFrame).1.num_frames ∧
    (encCat (parseCat buf off sizeofVMDIKSingleFrame).1 sizeofVMDIKSingleFrame).length =
      4 + sizeofVMDIKSingleFrame * (parseCat buf off sizeofVMDIKSingleFrame).1.num_frames ∧
    sizeofVMDIKSingleFrame = 4 + 1 + 4 + (20 + 1) := by
  by_cases h : readU32 buf off = 0
  · simp [parseCat, h, encCat, encFrames, u32le, sizeofVMDIKSingleFrame,
      sizeofVMDInfoIK]
  · simp [parseCat, h, encCat, encFrames, u32le, readBytes_length,
      sizeofVMDIKSingleFrame, sizeofVMDInfoIK]
    omega

theorem cInsert_perm (le : α → α → Bool) (a : α) (l : List α) :
    (cInsert le a l).Perm (a :: l) := by
  induction l with
  | nil => simp [cInsert]
  | cons b bs ih =>
    cases h : le a b with
    | true => simp [cInsert, h]
    | false =>
      simp only [cInsert, h, Bool.false_eq_true, if_false]
      exact (List.Perm.cons b ih).trans (List.Perm.swap a b bs)

theorem cSort_perm (le : α → α → Bool) (l : List α) : (cSort le l).Perm l := by
  induction l with
  | nil => simp [cSort]
  | cons a as ih =>
    simp only [cSort]
    exact (cInsert_perm le a (cSort le as)).trans (List.Perm.cons a ih)

theorem cInsert_pairwise (key : α → Nat) (le : α → α → Bool) (a : α)
    (l : List α)
    (hle : ∀ b ∈ l, le a b = true → key a ≤ key b)
    (hgt : ∀ b ∈ l, le a b = false → key b ≤ key a)
    (hl : l.Pairwise (fun x y => key x ≤ key y)) :
    (cInsert le a l).Pairwise (fun x y => key x ≤ key y) := by
  induction l with
  | nil => simp [cInsert]
  | cons b bs ih =>
    rw [List.pairwise_cons] at hl
    obtain ⟨hb, hbs⟩ := hl
    cases h : le a b with
    | true =>
      simp only [cInsert, h, if_true]
      rw [List.pairwise_cons]
      refine ⟨?_, ?_⟩
      · intro y hy
        rcases List.mem_cons.1 hy with rfl | hy2
        · exact hle y (List.mem_cons_self _ _) h
        · exact le_trans (hle b (List.mem_cons_self _ _) h) (hb y hy2)
      · rw [List.pairwise_cons]
        exact ⟨hb, hbs⟩
    | false =>
      simp only [cInsert, h, Bool.false_eq_true, if_false]
      rw [List.pairwise_cons]
      refine ⟨?_, ?_⟩
      · intro y hy
        have hmem : y = a ∨ y ∈ bs := by
          simpa using (cInsert_perm le a bs).mem_iff.1 hy
        rcases hmem with rfl | hy2
        · exact hgt b (List.mem_cons_self _ _) h
        · exact hb y hy2
      · exact ih (fun y hy hley => hle y (List.mem_cons_of_mem _ hy) hley)
          (fun y hy hley => hgt y (List.mem_cons_of_mem _ hy) hley) hbs

theorem cSort_pairwise (key : α → Nat) (le : α → α → Bool) (l : List α)
    (htot : ∀ a ∈ l, ∀ b ∈ l, le a b = true ↔ key a ≤ key b) :
    (cSort le l).Pairwise (fun x y => key x ≤ key y) := by
  induction l with
  | nil => simp [cSort]
  | cons a as ih =>
    simp only [cSort]
    have hmem : ∀ y, y ∈ cSort le as → y ∈ as :=
      fun y hy => (cSort_perm le as).mem_iff.1 hy
    apply cInsert_pairwise
    · intro b hb hleab
      exact (htot a (List.mem_cons_self _ _) b
        (List.mem_cons_of_mem _ (hmem b hb))).1 hleab
    · intro b hb hleab
      have hiff := htot a (List.mem_cons_self _ _) b
        (List.mem_cons_of_mem _ (hmem b hb))
      have hnot : ¬ key a ≤ key b := fun hk => by
        rw [← hiff] at hk
        rw [hk] at hleab
        exact Bool.true_eq_false.mp hleab
      omega
    · exact ih (fun x hx y hy =>
        htot x (List.mem_cons_of_mem _ hx) y (List.mem_cons_of_mem _ hy))

theorem cmpFrame32_le_iff (a b : Nat) (ha : a < 4294967296)
    (hb : b < 4294967296) (hab : a < b + 2147483648)
    (hba : b < a + 2147483648) :
    cmpFrame32 a b ≤ 0 ↔ a ≤ b := by
  unfold cmpFrame32 toInt32
  rw [Nat.mod_eq_of_lt ha, Nat.mod_eq_of_lt hb]
  split_ifs with h <;> omega

theorem recLE_iff (off : Nat) (a b : List Nat)
    (hab : readU32 a off < readU32 b off + 2147483648)
    (hba : readU32 b off < readU32 a off + 2147483648) :
    recLE off a b = true ↔ readU32 a off ≤ readU32 b off := by
  unfold recLE
  rw [decide_eq_true_iff]
  exact cmpFrame32_le_iff _ _ (readU32_lt a off) (readU32_lt b off) hab hba

/-- C8 counterexample: in the Morph category, two records with frame
indices 2 and 0xFFFFFFFE sort with the 0xFFFFFFFE record FIRST (the
signed-subtraction comparator returns +4), so the output is not in
ascending frame-index order as the claim states for every category. -/
theorem c8_counterexample :
    VMDqsort (some (morphRec 2 ++ morphRec 0xFFFFFFFE)) 2
        sizeofVMDMorphSingleFrame VMDL_MORPH 0 =
      (QsortResult.ok (some (morphRec 0xFFFFFFFE ++ morphRec 2)), 0) ∧
    ¬ (readU32 (morphRec 0xFFFFFFFE ++ morphRec 2) 15 ≤
        readU32 (morphRec 0xFFFFFFFE ++ morphRec 2) 38) := by
  decide

/-- C8 amended: for any category (any valid selector with its comparator
offset), sorting a storage of `num` records of `size` byte values
rearranges the records into a permutation of themselves; whenever every
two frame indices in the category differ by less than 2^31 (as in the
claim's example `[5, 1, 3, 1]`), that permutation is in ascending
frame-index order (ties in either relative order); and on a category with
0 or 1 records the storage is returned unchanged and `VMD_ERROR` is
untouched. -/
theorem c8_sort_amended (storage : List Nat) (num size typ off err : Nat)
    (hoff : frameOffsetOfType typ = some off)
    (hbytes : ∀ x ∈ storage, x < 256)
    (hlen : storage.length = num * size)
    (hclose : ∀ a ∈ chunkRecords storage num size,
      ∀ b ∈ chunkRecords storage num size,
        readU32 a off < readU32 b off + 2147483648) :
    (∃ rs : List (List Nat),
      VMDqsort (some storage) num size typ err =
        (QsortResult.ok (some rs.flatten), err) ∧
      rs.Perm (chunkRecords storage num size) ∧
      rs.Pairwise (fun a b => readU32 a off ≤ readU32 b off)) ∧
    (num ≤ 1 →
      VMDqsort (some storage) num size typ err =
        (QsortResult.ok (some storage), err)) := by
  have hq : VMDqsort (some storage) num size typ err =
      (QsortResult.ok (some (sortCatBytes storage num size off)), err) := by
    simp [VMDqsort, qsortWithComparator, hoff]
  have hdrop : storage.drop (num * size) = [] := by
    rw [← hlen, List.drop_length]
  constructor
  · refine ⟨cSort (recLE off) (chunkRecords storage num size), ?_,
      cSort_perm _ _, ?_⟩
    · rw [hq]
      unfold sortCatBytes
      rw [hdrop, List.append_nil]
    · apply cSort_pairwise
      intro a ha b hb
      exact recLE_iff off a b (hclose a ha b hb) (hclose b hb a ha)
  · intro hn
    rw [hq]
    have hss : sortCatBytes storage num size off = storage := by
      interval_cases num
      · simp [sortCatBytes, chunkRecords, cSort]
      · have hl1 : storage.length = size := by omega
        have hck : sortCatBytes storage 1 size off =
            readBytes storage 0 size ++ storage.drop (1 * size) := by
          simp [sortCatBytes, chunkRecords, cSort, cInsert]
        rw [hck, readBytes_self storage size hbytes hl1]
        have hd : storage.drop (1 * size) = [] := by
          rw [← hlen, List.drop_length]
        rw [hd, List.append_nil]
    rw [hss]

/-- C8 amended, witness: a Morph category populated with frame indices
`[5, 1, 3, 1]`. -/
theorem c8_sort_amended_witness :
    (∃ rs : List (List Nat),
      VMDqsort (some (morphRec 5 ++ (morphRec 1 ++ (morphRec 3 ++ morphRec 1))))
          4 sizeofVMDMorphSingleFrame VMDL_MORPH 0 =
        (QsortResult.ok (some rs.flatten), 0) ∧
      rs.Perm (chunkRecords
        (morphRec 5 ++ (morphRec 1 ++ (morphRec 3 ++ morphRec 1))) 4
        sizeofVMDMorphSingleFrame) ∧
      rs.Pairwise (fun a b => readU32 a 15 ≤ readU32 b 15)) ∧
    (4 ≤ 1 →
      VMDqsort (some (morphRec 5 ++ (morphRec 1 ++ (morphRec 3 ++ morphRec 1))))
          4 sizeofVMDMorphSingleFrame VMDL_MORPH 0 =
        (QsortResult.ok (some
          (morphRec 5 ++ (morphRec 1 ++ (morphRec 3 ++ morphRec 1)))), 0)) :=
  c8_sort_amended (morphRec 5 ++ (morphRec 1 ++ (morphRec 3 ++ morphRec 1)))
    4 sizeofVMDMorphSingleFrame VMDL_MORPH 15 0
    (by decide) (by decide) (by decide) (by decide)

end VMDLib
